import Mathlib

/-!
Verification development for the binaural-beats synthesis engine
(`bineural_beats.py`, class `BinauralBeatsApp`).

The Python floats are modelled as real numbers; `numpy` arrays of
`frames` samples are modelled as functions from the sample index to the
real value (only indices below the frame count are ever written to the
device).  `np.mod` is modelled by `npMod`, `np.cumsum` by a `Finset.range`
partial sum, and `int(...)` applied to a nonnegative value by the integer
floor.  Stateful methods of the class become functions on an explicit
`AppState`; calls the methods make into the audio library (stream stop,
stream close, thread spawn, thread join) are recorded in a returned
`LibCall` list so that theorems can speak about which of them happen.
-/

open Real

/-- Model of `np.mod x y`: `x - y * floor (x / y)` (for `y > 0` this is the
nonnegative remainder; the source only uses it with modulus `2 * π`). -/
noncomputable def npMod (x y : ℝ) : ℝ := x - y * ⌊x / y⌋

/-- Model of line 106, `freq_left = base - beat/2` (constant mode). -/
noncomputable def constFreqLeft (base beat : ℝ) : ℝ := base - beat / 2

/-- Model of line 107, `freq_right = base + beat/2` (constant mode). -/
noncomputable def constFreqRight (base beat : ℝ) : ℝ := base + beat / 2

/-- Model of line 108, `phase_inc_left = 2 * np.pi * freq_left / sr`. -/
noncomputable def phaseIncLeft (base beat sr : ℝ) : ℝ :=
  2 * π * constFreqLeft base beat / sr

/-- Model of line 109, `phase_inc_right = 2 * np.pi * freq_right / sr`. -/
noncomputable def phaseIncRight (base beat sr : ℝ) : ℝ :=
  2 * π * constFreqRight base beat / sr

/-- Model of lines 118-120 (alternating mode): for absolute sample index `t`
(`t = np.arange(frames) + self.t_sample`), `t_sec = t / sr` and
`mod = np.sin(2 * np.pi * beat * t_sec)`. -/
noncomputable def altLfo (beat sr : ℝ) (t : ℕ) : ℝ :=
  Real.sin (2 * π * beat * (t / sr))

/-- Model of line 122, `freq_left = base - (mod * beat/2)`. -/
noncomputable def altFreqLeft (base beat sr : ℝ) (t : ℕ) : ℝ :=
  base - altLfo beat sr t * beat / 2

/-- Model of line 123, `freq_right = base + (mod * beat/2)`. -/
noncomputable def altFreqRight (base beat sr : ℝ) (t : ℕ) : ℝ :=
  base + altLfo beat sr t * beat / 2

/-- Model of line 125, `phase_left = np.cumsum(2 * np.pi * freq_left / sr)`:
entry `i` of the cumulative sum is the sum of the per-sample phase
increments at absolute sample indices `t0, t0 + 1, ..., t0 + i`. -/
noncomputable def altCumLeft (base beat sr : ℝ) (t0 : ℕ) (i : ℕ) : ℝ :=
  ∑ j ∈ Finset.range (i + 1), 2 * π * altFreqLeft base beat sr (t0 + j) / sr

/-- Model of line 126, `phase_right = np.cumsum(2 * np.pi * freq_right / sr)`. -/
noncomputable def altCumRight (base beat sr : ℝ) (t0 : ℕ) (i : ℕ) : ℝ :=
  ∑ j ∈ Finset.range (i + 1), 2 * π * altFreqRight base beat sr (t0 + j) / sr

/-- Result of one invocation of the audio callback (lines 99-138):
the per-channel waveforms `left` and `right` before volume scaling, the
volume-scaled stereo output written to `outdata` (line 136-137), and the
updated phase accumulators and sample counter. -/
structure RenderResult where
  left : ℕ → ℝ
  right : ℕ → ℝ
  out : ℕ → ℝ × ℝ
  phase_left : ℝ
  phase_right : ℝ
  t_sample : ℕ

/-- Model of the body of `callback` (lines 105-138), for one invocation:
given the mode string and frozen parameters (closed over from `_play`),
the volume read for this buffer, the incoming phase accumulators, the
incoming sample counter `t0` and the frame count `frames`, produce the
buffer and the updated state.  Notes kept faithful to the source:
`self.t_sample += frames` (line 138) executes in every branch; the
alternating branch reads `phase_left[-1]` (lines 130-131), which in the
source is defined only for `frames ≥ 1` (an empty cumulative sum would
raise), so here it appears as index `frames - 1` and theorems about that
branch assume `1 ≤ frames`; the unrecognized-mode branch (lines 134-135)
leaves both phase accumulators untouched. -/
noncomputable def callbackRender (mode : String) (base beat sr vol pL pR : ℝ)
    (t0 frames : ℕ) : RenderResult :=
  if mode = "constant" then
    let left : ℕ → ℝ := fun i => Real.sin (pL + phaseIncLeft base beat sr * i)
    let right : ℕ → ℝ := fun i => Real.sin (pR + phaseIncRight base beat sr * i)
    { left := left
      right := right
      out := fun i => (left i * vol, right i * vol)
      phase_left := npMod (pL + phaseIncLeft base beat sr * frames) (2 * π)
      phase_right := npMod (pR + phaseIncRight base beat sr * frames) (2 * π)
      t_sample := t0 + frames }
  else if mode = "alternating" then
    let left : ℕ → ℝ := fun i => Real.sin (pL + altCumLeft base beat sr t0 i)
    let right : ℕ → ℝ := fun i => Real.sin (pR + altCumRight base beat sr t0 i)
    { left := left
      right := right
      out := fun i => (left i * vol, right i * vol)
      phase_left := npMod (pL + altCumLeft base beat sr t0 (frames - 1)) (2 * π)
      phase_right := npMod (pR + altCumRight base beat sr t0 (frames - 1)) (2 * π)
      t_sample := t0 + frames }
  else
    let left : ℕ → ℝ := fun _ => 0
    let right : ℕ → ℝ := fun _ => 0
    { left := left
      right := right
      out := fun i => (left i * vol, right i * vol)
      phase_left := pL
      phase_right := pR
      t_sample := t0 + frames }

/-- The per-session parameter snapshot built by `start` (lines 64-70):
`self._cached_params`. -/
structure CachedParams where
  base : ℝ
  beat : ℝ
  mode : String
  sr : ℕ
  duration : Option ℝ

/-- Configuration of the `sd.OutputStream` opened at lines 140-142. -/
structure StreamCfg where
  samplerate : ℕ
  channels : ℕ
  blocksize : ℕ

/-- The calls a lifecycle method can make into the audio and threading
libraries; each method returns the list of such calls it performs, in
order, so theorems can state which of them happen.  `threadJoin` is in
the vocabulary because `threading.Thread` offers it, even though no
method of the source ever calls it. -/
inductive LibCall where
  | threadSpawn : LibCall
  | threadJoin : LibCall
  | streamStop : LibCall
  | streamClose : LibCall
deriving DecidableEq

/-- The mutable state of a `BinauralBeatsApp` instance: the fields set in
`__init__` (lines 11-22) together with `phase_left`, `phase_right` and
`t_sample`, which the source first creates in `_play` (lines 95-97) and
which are modelled here as always-present fields initialized to 0.
`volume`, `base_freq`, `beat_freq` and `mode` stand for the values held
by the corresponding Tkinter control variables. -/
structure AppState where
  is_playing : Bool
  stream : Option StreamCfg
  cached_params : Option CachedParams
  sr : ℕ
  duration : Option ℝ
  volume : ℝ
  base_freq : ℝ
  beat_freq : ℝ
  mode : String
  thread_volume : ℝ
  phase_left : ℝ
  phase_right : ℝ
  t_sample : ℕ

/-- The state built by `__init__` (lines 8-23): not playing, no stream,
no thread, sample rate 44100, `duration = None` (play until stopped),
volume 0.5, base 200 Hz, beat 10 Hz, constant mode. -/
noncomputable def initState : AppState :=
  { is_playing := false
    stream := none
    cached_params := none
    sr := 44100
    duration := none
    volume := 1 / 2
    base_freq := 200
    beat_freq := 10
    mode := "constant"
    thread_volume := 1 / 2
    phase_left := 0
    phase_right := 0
    t_sample := 0 }

/-- Model of `start` (lines 60-76) together with the prologue of the
worker it spawns, which runs sequentially before any audio is rendered:
`_play` lines 86-97 (read the cached parameters, reset both phase
accumulators and the sample counter to 0) and the stream construction at
lines 140-142.  If a session is already playing, `start` returns at
line 62 having changed nothing and performed no call. -/
noncomputable def startOp (s : AppState) : AppState × List LibCall :=
  if s.is_playing then (s, [])
  else
    ({ s with
        cached_params := some
          { base := s.base_freq
            beat := s.beat_freq
            mode := s.mode
            sr := s.sr
            duration := s.duration }
        thread_volume := s.volume
        is_playing := true
        phase_left := 0
        phase_right := 0
        t_sample := 0
        stream := some { samplerate := s.sr, channels := 2, blocksize := 1024 } },
     [LibCall.threadSpawn])

/-- Model of `stop` (lines 78-84): unconditionally clear `is_playing`;
then, if a stream object is held, call its `stop` and `close` methods and
drop the reference.  No call to `thread.join` appears anywhere in the
method. -/
noncomputable def stopOp (s : AppState) : AppState × List LibCall :=
  let s1 : AppState := { s with is_playing := false }
  match s1.stream with
  | some _ => ({ s1 with stream := none }, [LibCall.streamStop, LibCall.streamClose])
  | none => (s1, [])

/-- Model of `on_volume_release` (lines 42-45) together with the slider
movement that precedes it: the control variable and, under the lock, the
thread-safe copy are set to the new value. -/
noncomputable def setVolumeOp (s : AppState) (v : ℝ) : AppState :=
  { s with volume := v, thread_volume := v }

/-- Model of Python `int(x)`: truncation toward zero. -/
noncomputable def pyInt (x : ℝ) : ℤ := if 0 ≤ x then ⌊x⌋ else -⌊-x⌋

/-- Model of line 94, `frames_total = None if duration is None else
int(sr * duration)`. -/
noncomputable def framesTotal (sr : ℕ) (duration : Option ℝ) : Option ℤ :=
  duration.map fun d => pyInt ((sr : ℝ) * d)

/-- The guard of the polling loop the worker sits in (lines 145-150):
with no duration the worker keeps sleeping while `is_playing`; with a
duration it keeps sleeping while `is_playing and t_sample < frames_total`. -/
def loopContinues (s : AppState) (ft : Option ℤ) : Prop :=
  match ft with
  | none => s.is_playing = true
  | some n => s.is_playing = true ∧ (s.t_sample : ℤ) < n

instance (s : AppState) (ft : Option ℤ) : Decidable (loopContinues s ft) := by
  unfold loopContinues
  cases ft <;> infer_instance

/-- Model of one invocation of the audio callback acting on the app
state: the closed-over `mode`, `base`, `beat`, `sr` come from the cached
parameter snapshot, the volume is the thread-safe copy read at lines
101-102, and the phase accumulators and sample counter are updated as in
`callbackRender`.  The callback only runs while a session holds the
cached snapshot; with no snapshot the state is returned unchanged. -/
noncomputable def callbackStep (s : AppState) (frames : ℕ) : AppState :=
  match s.cached_params with
  | none => s
  | some cp =>
      let r := callbackRender cp.mode cp.base cp.beat (cp.sr : ℝ) s.thread_volume
        s.phase_left s.phase_right s.t_sample frames
      { s with
          phase_left := r.phase_left
          phase_right := r.phase_right
          t_sample := r.t_sample }

/-- Model of the worker leaving its polling loop (executed once
`loopContinues` fails): exiting the `with self.stream` block stops and
closes the stream object (the reference in `self.stream` is not
cleared), then line 151 resets `self.t_sample = 0` and `_play` returns.
Nothing here writes `is_playing`. -/
noncomputable def workerFinish (s : AppState) : AppState × List LibCall :=
  ({ s with t_sample := 0 }, [LibCall.streamStop, LibCall.streamClose])

/-- The app states reachable by the control surface acting sequentially:
the initial state, editing a control variable, starting, rendering a
buffer, the worker finishing, and stopping. -/
inductive Reachable : AppState → Prop where
  | init : Reachable initState
  | set_base (s : AppState) (v : ℝ) : Reachable s → Reachable { s with base_freq := v }
  | set_beat (s : AppState) (v : ℝ) : Reachable s → Reachable { s with beat_freq := v }
  | set_mode (s : AppState) (m : String) : Reachable s → Reachable { s with mode := m }
  | set_volume (s : AppState) (v : ℝ) : Reachable s → Reachable (setVolumeOp s v)
  | start (s : AppState) : Reachable s → Reachable (startOp s).1
  | render (s : AppState) (frames : ℕ) : Reachable s → Reachable (callbackStep s frames)
  | finish (s : AppState) : Reachable s → Reachable (workerFinish s).1
  | stop (s : AppState) : Reachable s → Reachable (stopOp s).1

/-- For a positive modulus, `npMod` lands in `[0, y)`. -/
theorem npMod_mem_Ico (x : ℝ) {y : ℝ} (hy : 0 < y) : npMod x y ∈ Set.Ico 0 y := by
  unfold npMod
  constructor
  · have h := Int.sub_floor_div_mul_nonneg x hy
    linarith [h]
  · have h := Int.sub_floor_div_mul_lt x hy
    linarith [h]

/-- Reducing an angle with `npMod _ (2 * π)` does not change the sine of
any offset from it: the two differ by an integer multiple of the period. -/
theorem sin_npMod_add (x y : ℝ) :
    Real.sin (npMod x (2 * π) + y) = Real.sin (x + y) := by
  have h : npMod x (2 * π) + y = (x + y) - (⌊x / (2 * π)⌋ : ℤ) * (2 * π) := by
    unfold npMod; ring
  rw [h, Real.sin_periodic.sub_int_mul_eq]

/-- C5: In constant mode with `base_freq = 200`, `beat_freq = 10`,
`sample_rate = 44100`, a buffer rendered from phase 0 has left channel
`sin(2 * π * 195 * t)` and right channel `sin(2 * π * 205 * t)` at
`t = i / 44100`, exactly (the real-number model has no floating-point
rounding, so the tolerance is met with equality). -/
theorem constant_mode_first_buffer (vol : ℝ) (t0 n i : ℕ) :
    (callbackRender "constant" 200 10 44100 vol 0 0 t0 n).left i =
      Real.sin (2 * π * 195 * (i / 44100)) ∧
    (callbackRender "constant" 200 10 44100 vol 0 0 t0 n).right i =
      Real.sin (2 * π * 205 * (i / 44100)) := by
  constructor <;>
  · simp only [callbackRender, if_pos]
    congr 1
    simp only [phaseIncLeft, phaseIncRight, constFreqLeft, constFreqRight]
    ring

/-- C7: For a mode string other than `"constant"` and `"alternating"`,
the rendered buffer is silent: both pre-scale waveforms and the stereo
output are zero at every index, for every frame count.  (In the source
this branch runs without raising: it builds `np.zeros(frames)`.) -/
theorem unrecognized_mode_silent (mode : String) (h1 : mode ≠ "constant")
    (h2 : mode ≠ "alternating") (base beat sr vol pL pR : ℝ) (t0 frames i : ℕ) :
    (callbackRender mode base beat sr vol pL pR t0 frames).out i = (0, 0) ∧
    (callbackRender mode base beat sr vol pL pR t0 frames).left i = 0 ∧
    (callbackRender mode base beat sr vol pL pR t0 frames).right i = 0 := by
  simp [callbackRender, h1, h2]

/-- Witness for C7 at a concrete unrecognized mode string. -/
theorem unrecognized_mode_silent_witness :
    ("pulse" : String) ≠ "constant" ∧ ("pulse" : String) ≠ "alternating" ∧
    (callbackRender "pulse" 200 10 44100 (1/2) 0 0 0 1024).out 0 = (0, 0) := by
  refine ⟨by decide, by decide, ?_⟩
  exact (unrecognized_mode_silent "pulse" (by decide) (by decide)
    200 10 44100 (1/2) 0 0 0 1024 0).1

/-- C10: In the unrecognized-mode fallback branch the sample counter
still advances by the frame count (line 138 runs in every branch) while
both phase accumulators are returned untouched; consequently, for any
duration bound at most the new counter value, the termination test
`t_sample < frames_total` fails after the buffer, so a duration-bounded
session reaches its stop condition on schedule. -/
theorem fallback_advances_counter (mode : String) (h1 : mode ≠ "constant")
    (h2 : mode ≠ "alternating") (base beat sr vol pL pR : ℝ) (t0 frames : ℕ) :
    (callbackRender mode base beat sr vol pL pR t0 frames).t_sample = t0 + frames ∧
    (callbackRender mode base beat sr vol pL pR t0 frames).phase_left = pL ∧
    (callbackRender mode base beat sr vol pL pR t0 frames).phase_right = pR ∧
    ∀ ft : ℕ, ft ≤ t0 + frames →
      ¬ (callbackRender mode base beat sr vol pL pR t0 frames).t_sample < ft := by
  simp only [callbackRender, if_neg h1, if_neg h2]
  refine ⟨trivial, trivial, trivial, ?_⟩
  intro ft hft
  omega

/-- Witness for C10 at a concrete unrecognized mode string. -/
theorem fallback_advances_counter_witness :
    ("pulse" : String) ≠ "constant" ∧ ("pulse" : String) ≠ "alternating" ∧
    (callbackRender "pulse" 200 10 44100 (1/2) 0 0 0 1024).t_sample = 0 + 1024 := by
  refine ⟨by decide, by decide, ?_⟩
  exact (fallback_advances_counter "pulse" (by decide) (by decide)
    200 10 44100 (1/2) 0 0 0 1024).1

/-- A sine sample scaled by a nonnegative volume stays within the volume. -/
theorem sin_mul_vol_mem_Icc (x vol : ℝ) (hvol : 0 ≤ vol) :
    Real.sin x * vol ∈ Set.Icc (-vol) vol := by
  constructor
  · nlinarith [Real.neg_one_le_sin x]
  · nlinarith [Real.sin_le_one x]

/-- C6: For every mode string (both recognized modes and the fallback)
and every buffer, each component of every stereo output sample lies in
`[-vol, vol]`, where `vol` is the volume value read for that buffer
(nonnegative per the volume channel contract `value in [0, 1]`). -/
theorem sample_bounded_by_volume (mode : String) (base beat sr vol pL pR : ℝ)
    (t0 frames i : ℕ) (hvol : 0 ≤ vol) :
    ((callbackRender mode base beat sr vol pL pR t0 frames).out i).1 ∈
      Set.Icc (-vol) vol ∧
    ((callbackRender mode base beat sr vol pL pR t0 frames).out i).2 ∈
      Set.Icc (-vol) vol := by
  by_cases hc : mode = "constant"
  · simp only [callbackRender, if_pos hc]
    exact ⟨sin_mul_vol_mem_Icc _ _ hvol, sin_mul_vol_mem_Icc _ _ hvol⟩
  · by_cases ha : mode = "alternating"
    · simp only [callbackRender, if_neg hc, if_pos ha]
      exact ⟨sin_mul_vol_mem_Icc _ _ hvol, sin_mul_vol_mem_Icc _ _ hvol⟩
    · simp only [callbackRender, if_neg hc, if_neg ha, zero_mul]
      exact ⟨⟨neg_nonpos.mpr hvol, hvol⟩, ⟨neg_nonpos.mpr hvol, hvol⟩⟩

/-- Witness for C6 at a concrete input. -/
theorem sample_bounded_by_volume_witness :
    (0 : ℝ) ≤ 1 / 2 ∧
    ((callbackRender "constant" 200 10 44100 (1/2) 0 0 0 1024).out 0).1 ∈
      Set.Icc (-(1/2) : ℝ) (1/2) := by
  refine ⟨by norm_num, ?_⟩
  exact (sample_bounded_by_volume "constant" 200 10 44100 (1/2) 0 0 0 1024 0
    (by norm_num)).1

/-- C4: After a buffer render the phase accumulators lie in `[0, 2 * π)`:
unconditionally for the constant and alternating modes (whatever the
parameter values, negative frequencies included, since `np.mod` with the
positive modulus `2 * π` lands there), and for any other mode string the
accumulators are returned untouched, so they stay in `[0, 2 * π)`
whenever they already were (they start each session at 0). -/
theorem phase_invariant_Ico (mode : String) (base beat sr vol pL pR : ℝ)
    (t0 frames : ℕ) :
    ((callbackRender "constant" base beat sr vol pL pR t0 frames).phase_left ∈
        Set.Ico 0 (2 * π) ∧
      (callbackRender "constant" base beat sr vol pL pR t0 frames).phase_right ∈
        Set.Ico 0 (2 * π)) ∧
    ((callbackRender "alternating" base beat sr vol pL pR t0 frames).phase_left ∈
        Set.Ico 0 (2 * π) ∧
      (callbackRender "alternating" base beat sr vol pL pR t0 frames).phase_right ∈
        Set.Ico 0 (2 * π)) ∧
    (mode ≠ "constant" → mode ≠ "alternating" →
      pL ∈ Set.Ico 0 (2 * π) → pR ∈ Set.Ico 0 (2 * π) →
      (callbackRender mode base beat sr vol pL pR t0 frames).phase_left ∈
          Set.Ico 0 (2 * π) ∧
        (callbackRender mode base beat sr vol pL pR t0 frames).phase_right ∈
          Set.Ico 0 (2 * π)) := by
  refine ⟨?_, ?_, ?_⟩
  · simp only [callbackRender, if_pos]
    exact ⟨npMod_mem_Ico _ Real.two_pi_pos, npMod_mem_Ico _ Real.two_pi_pos⟩
  · simp only [callbackRender, if_neg (by decide : ¬ ("alternating" : String) = "constant"),
      if_pos]
    exact ⟨npMod_mem_Ico _ Real.two_pi_pos, npMod_mem_Ico _ Real.two_pi_pos⟩
  · intro h1 h2 hL hR
    simp only [callbackRender, if_neg h1, if_neg h2]
    exact ⟨hL, hR⟩

/-- Witness for C4 at a concrete input, fallback branch included. -/
theorem phase_invariant_Ico_witness :
    (0 : ℝ) ∈ Set.Ico 0 (2 * π) ∧
    (callbackRender "pulse" 200 10 44100 (1/2) 0 0 0 1024).phase_left ∈
      Set.Ico 0 (2 * π) := by
  have h0 : (0 : ℝ) ∈ Set.Ico 0 (2 * π) := ⟨le_refl 0, Real.two_pi_pos⟩
  exact ⟨h0, ((phase_invariant_Ico "pulse" 200 10 44100 (1/2) 0 0 0 1024).2.2
    (by decide) (by decide) h0 h0).1⟩

/-- Splitting a shifted range sum at `n` (stated in the shape the
alternating-mode cumulative sums take; `n - 1 + 1` matches the source
reading entry `[-1]` of a cumulative sum over `n ≥ 1` elements). -/
theorem sum_shift_split (g : ℕ → ℝ) {n : ℕ} (t0 i : ℕ) (hn : 1 ≤ n) :
    (∑ j ∈ Finset.range (n - 1 + 1), g (t0 + j)) +
      ∑ j ∈ Finset.range (i + 1), g (t0 + n + j) =
      ∑ j ∈ Finset.range (n + i + 1), g (t0 + j) := by
  have h1 : n - 1 + 1 = n := by omega
  have h2 : n + i + 1 = n + (i + 1) := by omega
  rw [h1, h2, Finset.sum_range_add (fun j => g (t0 + j)) n (i + 1)]
  congr 1
  refine Finset.sum_congr rfl fun j hj => ?_
  congr 1
  omega

/-- C3: Rendering is phase-continuous across buffer boundaries, exactly,
in both modes: rendering `n` frames and then `m` frames from the
carried-over phase state and sample counter produces, at every index
`i < m` of the second buffer, the very sample the single `(n + m)`-frame
render produces at index `n + i` (the real-number model makes the
floating-point tolerance an equality).  `1 ≤ n` reflects that the source
reads the last entry of the first cumulative sum. -/
theorem render_split_phase_continuous (base beat sr vol pL pR : ℝ)
    (t0 n m i : ℕ) (hn : 1 ≤ n) (_hi : i < m) :
    (callbackRender "constant" base beat sr vol
        (callbackRender "constant" base beat sr vol pL pR t0 n).phase_left
        (callbackRender "constant" base beat sr vol pL pR t0 n).phase_right
        (callbackRender "constant" base beat sr vol pL pR t0 n).t_sample m).out i =
      (callbackRender "constant" base beat sr vol pL pR t0 (n + m)).out (n + i) ∧
    (callbackRender "alternating" base beat sr vol
        (callbackRender "alternating" base beat sr vol pL pR t0 n).phase_left
        (callbackRender "alternating" base beat sr vol pL pR t0 n).phase_right
        (callbackRender "alternating" base beat sr vol pL pR t0 n).t_sample m).out i =
      (callbackRender "alternating" base beat sr vol pL pR t0 (n + m)).out (n + i) := by
  constructor
  · have key : ∀ p inc : ℝ,
        Real.sin (npMod (p + inc * (n : ℝ)) (2 * π) + inc * (i : ℝ)) * vol =
          Real.sin (p + inc * ((n + i : ℕ) : ℝ)) * vol := by
      intro p inc
      rw [sin_npMod_add]
      congr 2
      push_cast
      ring
    simp only [callbackRender, if_pos]
    rw [Prod.mk.injEq]
    exact ⟨key pL _, key pR _⟩
  · have keyL : Real.sin (npMod (pL + altCumLeft base beat sr t0 (n - 1)) (2 * π) +
        altCumLeft base beat sr (t0 + n) i) * vol =
        Real.sin (pL + altCumLeft base beat sr t0 (n + i)) * vol := by
      rw [sin_npMod_add]
      congr 2
      rw [add_assoc]
      congr 1
      unfold altCumLeft
      exact sum_shift_split (fun t => 2 * π * altFreqLeft base beat sr t / sr) t0 i hn
    have keyR : Real.sin (npMod (pR + altCumRight base beat sr t0 (n - 1)) (2 * π) +
        altCumRight base beat sr (t0 + n) i) * vol =
        Real.sin (pR + altCumRight base beat sr t0 (n + i)) * vol := by
      rw [sin_npMod_add]
      congr 2
      rw [add_assoc]
      congr 1
      unfold altCumRight
      exact sum_shift_split (fun t => 2 * π * altFreqRight base beat sr t / sr) t0 i hn
    simp only [callbackRender, if_neg (by decide : ¬ ("alternating" : String) = "constant"),
      if_pos]
    rw [Prod.mk.injEq]
    exact ⟨keyL, keyR⟩

/-- Witness for C3 at concrete buffer sizes `n = 2`, `m = 3`, index `i = 1`. -/
theorem render_split_phase_continuous_witness :
    1 ≤ 2 ∧ 1 < 3 ∧
    (callbackRender "constant" 200 10 44100 (1/2)
        (callbackRender "constant" 200 10 44100 (1/2) 0 0 0 2).phase_left
        (callbackRender "constant" 200 10 44100 (1/2) 0 0 0 2).phase_right
        (callbackRender "constant" 200 10 44100 (1/2) 0 0 0 2).t_sample 3).out 1 =
      (callbackRender "constant" 200 10 44100 (1/2) 0 0 0 (2 + 3)).out (2 + 1) := by
  refine ⟨by norm_num, by norm_num, ?_⟩
  exact (render_split_phase_continuous 200 10 44100 (1/2) 0 0 0 2 3 1
    (by norm_num) (by norm_num)).1

/-- Along any sequential execution of the control surface, an app that
is not playing holds no stream reference. -/
theorem reachable_not_playing_stream_none {s : AppState} (h : Reachable s) :
    s.is_playing = false → s.stream = none := by
  induction h with
  | init => intro _; rfl
  | set_base s v h ih => exact ih
  | set_beat s v h ih => exact ih
  | set_mode s v h ih => exact ih
  | set_volume s v h ih => exact ih
  | start s h ih =>
      by_cases hp : s.is_playing
      · simp [startOp, hp]
      · simp [startOp, hp]
  | render s frames h ih =>
      cases hc : s.cached_params <;> simpa [callbackStep, hc] using ih
  | finish s h ih => simp [workerFinish]; exact fun hp => ih hp
  | stop s h ih =>
      intro _
      cases hs : s.stream <;> simp [stopOp, hs]

/-- C8: `start` called while a session is playing returns at once,
changing no field of the state and performing no library call (so no
second worker thread or stream is created); `stop` called while no
session is playing (in any state the control surface can reach) changes
no field and performs no library call. -/
theorem start_stop_noop :
    (∀ s : AppState, s.is_playing = true → startOp s = (s, [])) ∧
    (∀ s : AppState, Reachable s → s.is_playing = false → stopOp s = (s, [])) := by
  constructor
  · intro s hp
    simp [startOp, hp]
  · intro s hr hp
    have hs : s.stream = none := reachable_not_playing_stream_none hr hp
    cases s with
    | mk ip st cp sr d v bf bt md tv pl pr ts =>
        simp only at hp hs
        subst hp
        subst hs
        rfl

/-- Witness for C8: the playing half at the state reached by starting
from the initial state, the idle half at the initial state itself. -/
theorem start_stop_noop_witness :
    ((startOp initState).1.is_playing = true ∧
      startOp (startOp initState).1 = ((startOp initState).1, [])) ∧
    (Reachable initState ∧ initState.is_playing = false ∧
      stopOp initState = (initState, [])) := by
  refine ⟨⟨?_, ?_⟩, Reachable.init, rfl, ?_⟩
  · simp [startOp, initState]
  · exact start_stop_noop.1 _ (by simp [startOp, initState])
  · exact start_stop_noop.2 _ Reachable.init rfl

/-- C9: Whenever `start` actually launches a session (it does so exactly
when no session is playing, which is the case after a manual `stop`),
the worker prologue it runs before any rendering resets both phase
accumulators and the sample counter to 0; in particular this holds
unconditionally for a `start` that follows a `stop`. -/
theorem start_resets_phase_and_counter :
    (∀ s : AppState, s.is_playing = false →
      (startOp s).1.phase_left = 0 ∧ (startOp s).1.phase_right = 0 ∧
        (startOp s).1.t_sample = 0) ∧
    (∀ s : AppState, (stopOp s).1.is_playing = false ∧
      ((startOp (stopOp s).1).1.phase_left = 0 ∧
        (startOp (stopOp s).1).1.phase_right = 0 ∧
        (startOp (stopOp s).1).1.t_sample = 0)) := by
  have key : ∀ s : AppState, s.is_playing = false →
      (startOp s).1.phase_left = 0 ∧ (startOp s).1.phase_right = 0 ∧
        (startOp s).1.t_sample = 0 := by
    intro s hp
    simp [startOp, hp]
  refine ⟨key, fun s => ?_⟩
  have hstop : (stopOp s).1.is_playing = false := by
    cases hs : s.stream <;> simp [stopOp, hs]
  exact ⟨hstop, key _ hstop⟩

/-- Witness for C9 at the initial state. -/
theorem start_resets_phase_and_counter_witness :
    initState.is_playing = false ∧
    (startOp initState).1.phase_left = 0 ∧
    (startOp initState).1.phase_right = 0 ∧
    (startOp initState).1.t_sample = 0 := by
  exact ⟨rfl, start_resets_phase_and_counter.1 initState rfl⟩

/-- C2 (counterexample to the claim as stated): stopping the session
started from the initial state performs no `thread.join` — no code path
of `stop` joins the worker thread. -/
theorem stop_does_not_join_worker :
    LibCall.threadJoin ∉ (stopOp (startOp initState).1).2 := by
  simp [stopOp, startOp, initState]

/-- C2 (amended): `stop` clears the running flag and performs no thread
join; instead, whenever a stream reference is held it calls the stream
stop and close methods itself, in that order, before returning — so the
stream has been stopped and closed (and the reference dropped) when
`stop` returns. -/
theorem stop_clears_flag_and_closes_stream (s : AppState) :
    (stopOp s).1.is_playing = false ∧
    LibCall.threadJoin ∉ (stopOp s).2 ∧
    (stopOp s).1.stream = none ∧
    (s.stream ≠ none →
      (stopOp s).2 = [LibCall.streamStop, LibCall.streamClose]) := by
  cases hs : s.stream with
  | none => simp [stopOp, hs]
  | some cfg => simp [stopOp, hs]

/-- Witness for C2 at the state reached by starting from the initial
state, where a stream reference is held. -/
theorem stop_clears_flag_and_closes_stream_witness :
    (startOp initState).1.stream ≠ none ∧
    (stopOp (startOp initState).1).2 =
      [LibCall.streamStop, LibCall.streamClose] := by
  have h : (startOp initState).1.stream ≠ none := by
    simp [startOp, initState]
  exact ⟨h, (stop_clears_flag_and_closes_stream (startOp initState).1).2.2.2 h⟩

/-- C1 evidence: start a session whose cached parameters carry the
finite duration 0.01 s at sample rate 44100.  `frames_total` evaluates
to 441; after the first 1024-frame callback the sample counter is 1024,
so the worker polling loop condition fails and the worker finishes —
yet the state after the worker finishes still has `is_playing = true`,
because `_play` never clears the flag on the duration-exhausted path.
The spec instead promises `is_playing()` becomes false. -/
theorem duration_stop_leaves_flag_set :
    framesTotal 44100 (some (1 / 100)) = some 441 ∧
    (callbackStep (startOp { initState with duration := some (1 / 100) }).1
        1024).t_sample = 1024 ∧
    ¬ loopContinues
        (callbackStep (startOp { initState with duration := some (1 / 100) }).1 1024)
        (some 441) ∧
    (workerFinish
        (callbackStep (startOp { initState with duration := some (1 / 100) }).1
          1024)).1.is_playing = true := by
  refine ⟨?_, ?_, ?_, ?_⟩
  · simp only [framesTotal, Option.map, pyInt]
    norm_num
  · simp [callbackStep, startOp, initState, callbackRender]
  · intro hc
    have h2 := hc.2
    have ht : (callbackStep (startOp { initState with duration := some (1 / 100) }).1
        1024).t_sample = 1024 := by
      simp [callbackStep, startOp, initState, callbackRender]
    rw [ht] at h2
    norm_num at h2
  · simp [workerFinish, callbackStep, startOp, initState, callbackRender]
